import Mathlib

/-!
Verification development for the VanguardJiraAgent backend: a shallow
embedding, in Lean 4, of the session supervisor and request-execution core
(`backend/MCPClient.py`, `backend/app.py`), the tool argument validators
(`backend/ToolSchemas.py`, `backend/MCPCallInputWithParser.py`), the tool
invocation wrappers (`backend/MCPToolHandler.py`, `backend/AgentTools.py`),
and the NDJSON post-processing generator (`backend/server.py`,
`backend/utils.py`).

Python values that flow through these functions are modelled by the
inductive type `JVal`; machine-level concerns (event loops, threads,
wall-clock time) are modelled by explicit parameters: the sequence of
events produced by the underlying agent chain, the position at which an
exception is raised, and the position at which a queue read times out.
External fallible capabilities (the JSON parser, `ast.literal_eval`,
`dateutil` timestamp parsing, JSON serialization) are parameters of the
embedded functions, so theorems quantify over them and witnesses
instantiate them with small concrete functions.
-/

/-- A Python/JSON value as it appears in the backend's data flow. -/
inductive JVal where
  | null : JVal
  | bool (b : Bool) : JVal
  | num (n : Int) : JVal
  | str (s : String) : JVal
  | arr (elems : List JVal) : JVal
  | obj (fields : List (String × JVal)) : JVal

/-- Python truthiness of a `JVal` (`if final_output:` in `MCPClient.stream`). -/
def pyTruthy : JVal → Bool
  | .null => false
  | .bool b => b
  | .num n => n != 0
  | .str s => s != ""
  | .arr elems => !elems.isEmpty
  | .obj fields => !fields.isEmpty

/-- `dict.get(key)`: first binding of `key` in an association list (Python
dicts have unique keys, so the first binding is the binding). -/
def lookupKey (key : String) : List (String × JVal) → Option JVal
  | [] => none
  | (k, v) :: rest => if k = key then some v else lookupKey key rest

/-- `obj[key] = v`: replace the value bound to `key` (models in-place dict
assignment for a key that is already present). -/
def setKey (key : String) (v : JVal) (fields : List (String × JVal)) :
    List (String × JVal) :=
  fields.map (fun kv => if kv.1 = key then (kv.1, v) else kv)

/-- Python `str.strip()` on the character list: drop whitespace from both
ends. -/
def pyStripL (cs : List Char) : List Char :=
  ((cs.dropWhile Char.isWhitespace).reverse.dropWhile Char.isWhitespace).reverse

/-- Python `str.strip()`. -/
def pyStrip (s : String) : String :=
  String.mk (pyStripL s.data)

/-- ASCII lowering of one character, as Python `str.lower()` does on the
ASCII letters the router tokens use. -/
def lowerChar (c : Char) : Char :=
  if 'A' ≤ c ∧ c ≤ 'Z' then Char.ofNat (c.toNat + 32) else c

/-- Python `str.lower()` (ASCII fragment). -/
def pyLower (s : String) : String :=
  String.mk (s.data.map lowerChar)

/-- Does the character list start with the pattern? (helper for Python's
substring operator `in`). -/
def startsWithL : List Char → List Char → Bool
  | [], _ => true
  | _ :: _, [] => false
  | p :: ps, c :: cs => p == c && startsWithL ps cs

/-- Python's substring test `pat in s`, on character lists. -/
def containsTok (pat : List Char) : List Char → Bool
  | [] => startsWithL pat []
  | c :: cs => startsWithL pat (c :: cs) || containsTok pat cs

/-- Python's substring test `pat in s` on strings. -/
def strContains (s pat : String) : Bool :=
  containsTok pat.data s.data

/-!
## Argument validation (`ToolSchemas.py` and `MCPCallInputWithParser.py`)

Both files define a pydantic model `MCPCallInputWithParser` with fields
`tool : str` and `arguments : Dict[str, Any]` and a `mode="before"`
validator `parse_json_string` on `arguments`.  The `ToolSchemas.py`
variant parses a string argument with `json.loads` alone; the
`MCPCallInputWithParser.py` variant first strips, tries `json.loads`, and
falls back to `ast.literal_eval` before raising
`ValueError("Invalid arguments string: ...")`.  After the before-validator,
pydantic itself rejects any value that is not a dict.  The parsers
`json.loads` and `ast.literal_eval` are modelled as parameters of type
`String → Option JVal` (`none` = the parse raised).
-/

/-- `ToolSchemas.MCPCallInputWithParser.parse_json_string`, the
before-validator: a string argument is parsed with `json.loads` (empty or
whitespace-only strings become `{}`); a non-string passes through.
`.error` models the validator raising (pydantic turns it into a
ValidationError). -/
def parse_json_string_TS (jsonLoads : String → Option JVal) (v : JVal) :
    Except String JVal :=
  match v with
  | .str s =>
    if pyStrip s = "" then .ok (.obj [])
    else
      match jsonLoads s with
      | some j => .ok j
      | none => .error "JSONDecodeError"
  | _ => .ok v

/-- `MCPCallInputWithParser.MCPCallInputWithParser.parse_json_string`, the
before-validator of the second variant: strip, try `json.loads`, fall back
to `ast.literal_eval`, otherwise raise
`ValueError("Invalid arguments string: ...")`. -/
def parse_json_string_CI (jsonLoads litEval : String → Option JVal)
    (v : JVal) : Except String JVal :=
  match v with
  | .str s =>
    let stripped := pyStrip s
    if stripped = "" then .ok (.obj [])
    else
      match jsonLoads stripped with
      | some j => .ok j
      | none =>
        match litEval stripped with
        | some j => .ok j
        | none => .error ("Invalid arguments string: " ++ stripped)
  | _ => .ok v

/-- Full pydantic validation of the `arguments` field in the
`ToolSchemas.py` variant: run the before-validator, then require the
result to be a dict (the declared type is `Dict[str, Any]`). -/
def validate_TS (jsonLoads : String → Option JVal) (v : JVal) :
    Except String (List (String × JVal)) :=
  match parse_json_string_TS jsonLoads v with
  | .ok (.obj fields) => .ok fields
  | .ok _ => .error "arguments is not a dict"
  | .error e => .error e

/-- Full pydantic validation of the `arguments` field in the
`MCPCallInputWithParser.py` variant. -/
def validate_CI (jsonLoads litEval : String → Option JVal) (v : JVal) :
    Except String (List (String × JVal)) :=
  match parse_json_string_CI jsonLoads litEval v with
  | .ok (.obj fields) => .ok fields
  | .ok _ => .error "arguments is not a dict"
  | .error e => .error e

/-!
## The event stream (`MCPClient.stream` and its inner `_runner`)

`stream` first checks readiness (`self._loop` and `self._agent_chain`),
then dispatches `_runner` onto the agent's event loop and drains a
thread-safe queue.  `_runner` iterates over the agent chain's
`astream_events` stream: every `on_tool_start` pushes a `tool_call` item
immediately, every `on_chain_end` overwrites the remembered
`final_output`; after the iteration it pushes `final` (or an error when
no truthy final output was produced, or the extraction raised), and an
exception anywhere in the body pushes an `error` item; a sentinel always
follows last.  The upstream event sequence, the point at which an
exception interrupts it, and the point at which the consumer's
`q.get(timeout=300)` raises `Empty`, are parameters of the model.  The
terminal item and the sentinel are pushed with no suspension point
between them, so the consumer's timeout is modelled as occurring before
the terminal item is consumed.
-/

/-- One event of `astream_events(..., version="v1")` as `_runner` inspects
it: the event name, plus the fields the code reads (`e.get("name")`,
`e.get("data", {}).get("input")`, `e.get("data")`). -/
inductive ChainEvent where
  | onToolStart (name : Option String) (input : Option JVal) : ChainEvent
  | onChainEnd (data : Option JVal) : ChainEvent
  | otherEvent (kind : String) : ChainEvent

/-- One NDJSON event yielded by `MCPClient.stream`. -/
inductive StreamEvent where
  | toolCall (name : Option String) (args : Option JVal) : StreamEvent
  | final (output : JVal) : StreamEvent
  | error (msg : String) : StreamEvent

/-- `Final` and `Error` are the terminal event kinds. -/
def StreamEvent.isTerminal : StreamEvent → Bool
  | .toolCall _ _ => false
  | .final _ => true
  | .error _ => true

/-- The `async for` loop body of `_runner`: collect `tool_call` items in
order and remember the data of the last `on_chain_end` event. -/
def runnerLoop : List ChainEvent → Option JVal →
    List StreamEvent × Option JVal
  | [], fo => ([], fo)
  | .onToolStart n i :: rest, fo =>
    (.toolCall n i :: (runnerLoop rest fo).1, (runnerLoop rest fo).2)
  | .onChainEnd d :: rest, _ => runnerLoop rest d
  | .otherEvent _ :: rest, fo => runnerLoop rest fo

/-- `final_output.get("output", "").get("output", "")`: the first `.get`
needs `final_output` to be a dict, and the second needs the intermediate
value to be a dict, otherwise Python raises `AttributeError` (modelled by
`.error`), which the surrounding `except` turns into an error event. -/
def extractOut : JVal → Except String JVal
  | .obj fields =>
    match (lookupKey "output" fields).getD (.str "") with
    | .obj inner => .ok ((lookupKey "output" inner).getD (.str ""))
    | _ => .error "AttributeError"
  | _ => .error "AttributeError"

/-- The code after the `async for` loop in `_runner`: a truthy
`final_output` yields a `final` event with the extracted text (or an
`error` event if the extraction raised); otherwise the error event
`"No final output produced"`. -/
def finalStep (fo : Option JVal) : StreamEvent :=
  match fo with
  | some d =>
    if pyTruthy d then
      match extractOut d with
      | .ok outv => .final outv
      | .error m => .error m
    else .error "No final output produced"
  | none => .error "No final output produced"

/-- The full sequence of event items `_runner` pushes onto the queue
(the trailing sentinel is implicit).  `exc = some (k, msg)` means an
exception with message `msg` interrupted the iteration after `k` upstream
events were processed; the `except` clause then pushes one error item. -/
def runnerQueue (events : List ChainEvent) (exc : Option (Nat × String)) :
    List StreamEvent :=
  match exc with
  | none =>
    let (es, fo) := runnerLoop events none
    es ++ [finalStep fo]
  | some (k, msg) => (runnerLoop (List.take k events) none).1 ++ [.error msg]

/-- The idle bound of the consumer's `q.get(timeout=300)`. -/
def streamIdleTimeout : Nat := 300

/-- The consumer loop of `stream`: yield queue items until the sentinel;
if `Empty` is raised after `n` items were consumed (`timeoutAt = some n`),
yield the `"Stream timeout"` error and break. -/
def drainQueue (qs : List StreamEvent) (timeoutAt : Option Nat) :
    List StreamEvent :=
  match timeoutAt with
  | none => qs
  | some n => List.take n qs ++ [.error "Stream timeout"]

/-- `MCPClient.stream`: the not-ready check, then dispatch of `_runner`
and the queue-draining loop. -/
def streamRun (loopStarted chainBuilt : Bool) (events : List ChainEvent)
    (exc : Option (Nat × String)) (timeoutAt : Option Nat) :
    List StreamEvent :=
  if !loopStarted || !chainBuilt then [.error "MCP agent not ready"]
  else drainQueue (runnerQueue events exc) timeoutAt

/-- Result of `MCPClient.submit` / `_process_request`. -/
inductive SubmitResult where
  | ok (output : JVal) (raw : JVal) : SubmitResult
  | err (msg : String) : SubmitResult

/-- `MCPClient.submit`: the not-ready check, then dispatch of
`_process_request` (whose outcome is the parameter `processResult`). -/
def submitRun (loopStarted chainBuilt : Bool)
    (processResult : SubmitResult) : SubmitResult :=
  if !loopStarted || !chainBuilt then .err "MCP agent not ready"
  else processResult

/-!
## The reconnect loop (`MCPClient._maintain_connection`, `app._runner`)

Both supervisors run `backoff = 1; while not stop: try connect ...` with,
on success, `backoff = 1`, and in the `except` clause
`sleep(min(backoff, 10)); backoff = min(backoff * 2, 30)`.  The model
consumes a list of attempt outcomes (`true` = the session build
succeeded, `false` = it raised) and records the duration of every sleep
performed, threading the `backoff` variable exactly as the code does.
-/

/-- The reconnect loop, started with the current `backoff` value:
each failed attempt sleeps `min backoff 10` and doubles `backoff`
(capping at 30); each successful attempt resets `backoff` to 1.
Returns the list of sleep durations in order. -/
def reconnectSleeps (backoff : Nat) : List Bool → List Nat
  | [] => []
  | true :: rest => reconnectSleeps 1 rest
  | false :: rest => min backoff 10 :: reconnectSleeps (min (backoff * 2) 30) rest

/-- The value of the `backoff` variable after a run of attempts,
starting from the given value. -/
def backoffAfter (backoff : Nat) : List Bool → Nat
  | [] => backoff
  | true :: rest => backoffAfter 1 rest
  | false :: rest => backoffAfter (min (backoff * 2) 30) rest

/-- The sleep schedule the spec describes, modelled from the spec:
"sleep for `backoff` (starting at 1 time-unit, doubling, capped at 30
time-units)" — the sleep after the (k+1)-st consecutive failure is
`min (2 ^ k) 30`. -/
def specSleeps (n : Nat) : List Nat :=
  (List.range n).map (fun k => min (2 ^ k) 30)

/-!
## The router branch (`_build_agent_chain` in `MCPClient.py`,
`_runner` in `app.py`)

Both build the same `RunnableLambda`:
`"complex" if "complex" in rt else "smart" if "smart" in rt else "fast"`
applied to `r.text().strip().lower()`.
-/

/-- The route decision computed from the raw router output text. -/
def routeOf (routerText : String) : String :=
  let rt := pyLower (pyStrip routerText)
  if strContains rt "complex" then "complex"
  else if strContains rt "smart" then "smart"
  else "fast"

/-!
## Tool invocation wrappers (`MCPToolHandler.call_tool`,
`AgentTools._mcp_call`)
-/

/-- Outcome of `session.call_tool` on the live MCP session: a result
payload, or a raised exception with the given message. -/
inductive SessionOutcome where
  | ok (payload : String) : SessionOutcome
  | raised (msg : String) : SessionOutcome

/-- `MCPToolHandler.call_tool`: default the arguments to `{}` when
`None`, invoke the session, and catch every exception, returning the
string `"MCP tool invocation failed: <e>"` instead of propagating. -/
def call_tool (sessionCall : String → List (String × JVal) → SessionOutcome)
    (tool : String) (arguments : Option (List (String × JVal))) : String :=
  match sessionCall tool (arguments.getD []) with
  | .ok r => r
  | .raised e => "MCP tool invocation failed: " ++ e

/-- `AgentTools._mcp_call`: invoke the session and catch every exception,
returning the string `"MCP tool invocation failed: <e>"` instead of
propagating. -/
def mcp_call (sessionCall : String → List (String × JVal) → SessionOutcome)
    (tool : String) (arguments : List (String × JVal)) : String :=
  match sessionCall tool arguments with
  | .ok r => r
  | .raised e => "MCP tool invocation failed: " ++ e

/-!
## Chat history conversion (`_process_request`, `stream._runner`,
`app._submit_coro`)

All three sites run the same loop over `chat_history`:
`if m.get("role") == "human": append HumanMessage(m["content"])`,
`elif m.get("role") == "ai": append AIMessage(m["content"])`, and no
else branch — every other entry is skipped.
-/

/-- One entry of the caller-supplied chat history: `m.get("role")` may be
absent, `m["content"]` is read only for recognized roles. -/
structure HistEntry where
  role : Option String
  content : String

/-- A LangChain message as built by the history conversion loop. -/
inductive ChatMessage where
  | human (content : String) : ChatMessage
  | ai (content : String) : ChatMessage

/-- The history conversion loop: fold over the entries, appending a
`human` or `ai` message for the recognized roles and skipping everything
else. -/
def convertHistory (kv : List HistEntry) : List ChatMessage :=
  kv.foldl
    (fun acc m =>
      if m.role = some "human" then acc ++ [.human m.content]
      else if m.role = some "ai" then acc ++ [.ai m.content]
      else acc)
    []

/-!
## Timestamp rewriting (`utils.replace_iso8601_with_relative`) and the
NDJSON post-processing generator (`server.py`)

`replace_iso8601_with_relative` runs `re.sub` with the pattern

  `\d\x7b4\x7d-\d\x7b2\x7d-\d\x7b2\x7dT\d\x7b2\x7d:\d\x7b2\x7d:\d\x7b2\x7d(?:\.\d+)?(?:Z|[+-]\d\x7b2\x7d:?\d\x7b2\x7d)?`

replacing each match by a relative phrase computed from the parsed
timestamp and the current time.  The matcher below embeds this regex:
at a given position it either matches (consuming a maximal fraction and
an optional zone, exactly as the greedy regex does) or fails, and the
substitution walks the text left to right, replacing non-overlapping
matches and copying every other character, as `re.sub` does.  The
replacement function (`convert` in the source, which needs `dateutil`
parsing and the current wall-clock time) is a parameter `convert`;
`relativeForm` embeds its threshold arithmetic.
-/

/-- Consume exactly `n` decimal digits (`\d\x7bn\x7d`), returning them and the
rest. -/
def takeDigitsN : Nat → List Char → Option (List Char × List Char)
  | 0, cs => some ([], cs)
  | n + 1, c :: cs =>
    if c.isDigit then
      (takeDigitsN n cs).map (fun p => (c :: p.1, p.2))
    else none
  | _ + 1, [] => none

/-- Consume one literal character. -/
def takeLit (ch : Char) : List Char → Option (List Char)
  | c :: cs => if c = ch then some cs else none
  | [] => none

/-- Greedily consume decimal digits (`\d*`). -/
def takeDigitsMany : List Char → List Char × List Char
  | [] => ([], [])
  | c :: cs =>
    if c.isDigit then
      let p := takeDigitsMany cs
      (c :: p.1, p.2)
    else ([], c :: cs)

/-- The optional fractional-seconds group `(?:\.\d+)?`: a dot followed by
at least one digit, consumed greedily; otherwise the group matches
empty. -/
def matchFrac (cs : List Char) : List Char × List Char :=
  match cs with
  | '.' :: rest =>
    match rest with
    | c :: _ =>
      if c.isDigit then
        let p := takeDigitsMany rest
        ('.' :: p.1, p.2)
      else ([], cs)
    | [] => ([], cs)
  | _ => ([], cs)

/-- The optional zone group `(?:Z|[+-]\d\x7b2\x7d:?\d\x7b2\x7d)?`: a literal
`Z`, or a sign, two digits, an optional colon and two digits; if the
signed alternative cannot complete, the group matches empty (regex
backtracking). -/
def matchZone (cs : List Char) : List Char × List Char :=
  match cs with
  | 'Z' :: rest => (['Z'], rest)
  | c :: rest =>
    if c = '+' ∨ c = '-' then
      match takeDigitsN 2 rest with
      | some (d2, r2) =>
        match r2 with
        | ':' :: r3 =>
          match takeDigitsN 2 r3 with
          | some (d4, r4) => (c :: d2 ++ ':' :: d4, r4)
          | none => ([], cs)
        | _ =>
          match takeDigitsN 2 r2 with
          | some (d4, r4) => (c :: d2 ++ d4, r4)
          | none => ([], cs)
      | none => ([], cs)
    else ([], cs)
  | [] => ([], cs)

/-- Match the full ISO 8601 pattern at the head of the character list,
returning the matched characters and the rest. -/
def matchISO (cs : List Char) : Option (List Char × List Char) :=
  (takeDigitsN 4 cs).bind fun py =>
  (takeLit '-' py.2).bind fun r1 =>
  (takeDigitsN 2 r1).bind fun pmo =>
  (takeLit '-' pmo.2).bind fun r2 =>
  (takeDigitsN 2 r2).bind fun pd =>
  (takeLit 'T' pd.2).bind fun r3 =>
  (takeDigitsN 2 r3).bind fun ph =>
  (takeLit ':' ph.2).bind fun r4 =>
  (takeDigitsN 2 r4).bind fun pmi =>
  (takeLit ':' pmi.2).bind fun r5 =>
  (takeDigitsN 2 r5).bind fun ps =>
  let pf := matchFrac ps.2
  let pz := matchZone pf.2
  some (py.1 ++ '-' :: pmo.1 ++ '-' :: pd.1 ++ 'T' :: ph.1 ++ ':' :: pmi.1
    ++ ':' :: ps.1 ++ pf.1 ++ pz.1, pz.2)

/-- Does the ISO pattern match anywhere in the character list? -/
def anyMatchISO : List Char → Bool
  | [] => false
  | c :: cs => (matchISO (c :: cs)).isSome || anyMatchISO cs

/-- The `re.sub` walk: at each position, replace a match by
`convert(match)` and continue after it, otherwise copy one character.
`fuel` bounds the recursion; with `fuel ≥ length`, it never runs out
because every step consumes at least one character. -/
def subISOAux (convert : String → String) : Nat → List Char → List Char
  | 0, cs => cs
  | _ + 1, [] => []
  | fuel + 1, c :: cs =>
    match matchISO (c :: cs) with
    | some (m, rest) => (convert (String.mk m)).data ++ subISOAux convert fuel rest
    | none => c :: subISOAux convert fuel cs

/-- `replace_iso8601_with_relative` with the replacement function as a
parameter: substitute every non-overlapping ISO 8601 match. -/
def strSubISO (convert : String → String) (s : String) : String :=
  String.mk (subISOAux convert s.data.length s.data)

/-- The threshold arithmetic of the source's `convert`: seconds, minutes,
hours or days ago, by the age in seconds. -/
def relativeForm (seconds : Int) : String :=
  if seconds < 60 then toString seconds ++ " seconds ago"
  else if seconds < 3600 then toString (seconds / 60) ++ " minutes ago"
  else if seconds < 86400 then toString (seconds / 3600) ++ " hours ago"
  else toString (seconds / 86400) ++ " days ago"

/-- The source's `convert` given the current time and the timestamp
parser (`dateutil.parser.isoparse` composed with epoch conversion,
modelled as a parameter): a parse failure yields `"Invalid timestamp"`. -/
def convertTs (now : Int) (epochOf : String → Option Int) (ts : String) :
    String :=
  match epochOf ts with
  | some t => relativeForm (now - t)
  | none => "Invalid timestamp"

/-- One iteration of the `/mcp` response generator in `server.py`: parse
the NDJSON line (`parseLine`, modelling `json.loads`; `none` = raised);
if it is an object whose `type` is `"final"` with an `output` key, rewrite
the output's timestamps and re-serialize (`dumps`, modelling
`json.dumps`); any failure (non-JSON line, non-string output making
`re.sub` raise) or any other event yields the line verbatim. -/
def generatorStep (parseLine : String → Option (List (String × JVal)))
    (dumps : List (String × JVal) → String) (convert : String → String)
    (line : String) : String :=
  match parseLine line with
  | none => line
  | some obj =>
    match lookupKey "type" obj with
    | some (.str t) =>
      if t = "final" then
        match lookupKey "output" obj with
        | some (.str out) =>
          dumps (setKey "output" (.str (strSubISO convert out)) obj)
        | some _ => line
        | none => line
      else line
    | _ => line

/-!
## Helper lemmas
-/

lemma startsWithL_refl (cs : List Char) : startsWithL cs cs = true := by
  induction cs with
  | nil => rfl
  | cons c cs ih => simp [startsWithL, ih]

lemma containsTok_append_self (pat pre : List Char) :
    containsTok pat (pre ++ pat) = true := by
  induction pre with
  | nil =>
    cases pat with
    | nil => rfl
    | cons c cs => simp [containsTok, startsWithL_refl]
  | cons x xs ih => simp [containsTok, ih]

lemma reconnectSleeps_replicate (m k : Nat) :
    reconnectSleeps (min (2 ^ k) 30) (List.replicate m false) =
      (List.range m).map (fun i => min (2 ^ (k + i)) 10) := by
  induction m generalizing k with
  | zero => simp [reconnectSleeps]
  | succ m ih =>
    rw [List.replicate_succ]
    show min (min (2 ^ k) 30) 10 ::
        reconnectSleeps (min (min (2 ^ k) 30 * 2) 30) (List.replicate m false) = _
    have h1 : min (min (2 ^ k) 30) 10 = min (2 ^ k) 10 := by omega
    have h2 : min (min (2 ^ k) 30 * 2) 30 = min (2 ^ (k + 1)) 30 := by
      have hp : (2 : ℕ) ^ (k + 1) = 2 ^ k * 2 := pow_succ 2 k
      omega
    rw [h1, h2, ih (k + 1), List.range_succ_eq_map, List.map_cons, List.map_map]
    refine congrArg₂ _ (by simp) ?_
    refine List.map_congr_left ?_
    intro i _
    have : k + 1 + i = k + (i + 1) := by omega
    simp [Function.comp, this]

lemma backoffAfter_replicate (m k : Nat) :
    backoffAfter (min (2 ^ k) 30) (List.replicate m false) =
      min (2 ^ (k + m)) 30 := by
  induction m generalizing k with
  | zero => simp [backoffAfter]
  | succ m ih =>
    rw [List.replicate_succ]
    show backoffAfter (min (min (2 ^ k) 30 * 2) 30) (List.replicate m false) = _
    have h2 : min (min (2 ^ k) 30 * 2) 30 = min (2 ^ (k + 1)) 30 := by
      have hp : (2 : ℕ) ^ (k + 1) = 2 ^ k * 2 := pow_succ 2 k
      omega
    rw [h2, ih (k + 1)]
    have : k + 1 + m = k + (m + 1) := by omega
    rw [this]

lemma reconnectSleeps_length (l : List Bool) (b : Nat) :
    (reconnectSleeps b l).length = l.count false := by
  induction l generalizing b with
  | nil => rfl
  | cons x xs ih =>
    cases x <;> simp [reconnectSleeps, ih, List.count_cons]

lemma runnerLoop_nonterminal (evs : List ChainEvent) (fo : Option JVal) :
    ∀ e ∈ (runnerLoop evs fo).1, e.isTerminal = false := by
  induction evs generalizing fo with
  | nil => intro e he; simp [runnerLoop] at he
  | cons ev rest ih =>
    intro e he
    cases ev with
    | onToolStart n i =>
      simp only [runnerLoop, List.mem_cons] at he
      rcases he with rfl | he
      · rfl
      · exact ih fo e he
    | onChainEnd d => exact ih d e (by simpa [runnerLoop] using he)
    | otherEvent k => exact ih fo e (by simpa [runnerLoop] using he)

lemma finalStep_isTerminal (fo : Option JVal) :
    (finalStep fo).isTerminal = true := by
  cases fo with
  | none => rfl
  | some d =>
    simp only [finalStep]
    split
    · cases h : extractOut d <;> simp [h, StreamEvent.isTerminal]
    · rfl

lemma runnerQueue_shape (events : List ChainEvent)
    (exc : Option (Nat × String)) :
    ∃ es last, runnerQueue events exc = es ++ [last] ∧
      last.isTerminal = true ∧ ∀ e ∈ es, e.isTerminal = false := by
  cases exc with
  | none =>
    exact ⟨(runnerLoop events none).1, finalStep (runnerLoop events none).2,
      rfl, finalStep_isTerminal _, runnerLoop_nonterminal events none⟩
  | some p =>
    exact ⟨(runnerLoop (List.take p.1 events) none).1, .error p.2, rfl, rfl,
      runnerLoop_nonterminal _ none⟩

/-!
## Claim theorems
-/

/-- C4 counterexample: after 5 consecutive connection failures the
supervisor has slept 1, 2, 4, 8, 10 time-units, while the claimed
schedule (backoff starting at 1, doubling, capped at 30) predicts
1, 2, 4, 8, 16 — the code caps each sleep at 10 (`sleep(min(backoff, 10))`),
so the fifth sleep is 10, not the current backoff value 16. -/
theorem reconnect_sleep_cap_counterexample :
    reconnectSleeps 1 (List.replicate 5 false) = [1, 2, 4, 8, 10] ∧
    specSleeps 5 = [1, 2, 4, 8, 16] ∧
    reconnectSleeps 1 (List.replicate 5 false) ≠ specSleeps 5 := by
  refine ⟨by decide, by decide, by decide⟩

/-- C4 (amended): in the reconnect loop the `backoff` variable starts at
1, doubles after each consecutive failure and is capped at 30, but each
sleep lasts `min backoff 10` time-units (so the sleeps after consecutive
failures are 1, 2, 4, 8, 10, 10, ...); the backoff resets to 1 on the
next successful session build, and the loop sleeps once per failed
attempt however many attempts occur. -/
theorem reconnect_backoff_schedule (n b : Nat) (l : List Bool) :
    reconnectSleeps 1 (List.replicate n false) =
      (List.range n).map (fun k => min (2 ^ k) 10) ∧
    backoffAfter 1 (List.replicate n false) = min (2 ^ n) 30 ∧
    reconnectSleeps b (true :: l) = reconnectSleeps 1 l ∧
    backoffAfter b (true :: l) = backoffAfter 1 l ∧
    (reconnectSleeps b l).length = l.count false := by
  have h1 : (1 : ℕ) = min (2 ^ 0) 30 := by norm_num
  refine ⟨?_, ?_, rfl, rfl, reconnectSleeps_length l b⟩
  · rw [h1, reconnectSleeps_replicate]
    exact List.map_congr_left (fun i _ => by rw [Nat.zero_add])
  · rw [h1, backoffAfter_replicate, Nat.zero_add]

/-- C5: the route decision is computed from the trimmed, lowercased
router output: `"complex"` wins if present, otherwise `"smart"` if
present, otherwise the default `"fast"` — so with multiple tier tokens
the most specialized wins, and with no recognized token the cheapest
tier is chosen. -/
theorem router_route_decision (r : String) :
    (strContains (pyLower (pyStrip r)) "complex" = true →
      routeOf r = "complex") ∧
    (strContains (pyLower (pyStrip r)) "complex" = false →
      strContains (pyLower (pyStrip r)) "smart" = true →
      routeOf r = "smart") ∧
    (strContains (pyLower (pyStrip r)) "complex" = false →
      strContains (pyLower (pyStrip r)) "smart" = false →
      routeOf r = "fast") := by
  refine ⟨fun h => ?_, fun h1 h2 => ?_, fun h1 h2 => ?_⟩ <;>
    simp [routeOf, *]

/-- C5 witness: concrete router outputs exercising each branch — a text
containing both tokens routes to `complex`, a noisy `SMART` routes to
`smart`, and unrecognized text routes to `fast`. -/
theorem router_route_decision_witness :
    routeOf " Complex, but also smart " = "complex" ∧
    routeOf "  SMART! " = "smart" ∧
    routeOf "gibberish" = "fast" :=
  ⟨(router_route_decision " Complex, but also smart ").1 (by decide),
   (router_route_decision "  SMART! ").2.1 (by decide) (by decide),
   (router_route_decision "gibberish").2.2 (by decide) (by decide)⟩

/-- C6: when the underlying session's tool invocation raises, both
`MCPToolHandler.call_tool` and `AgentTools._mcp_call` return the string
`"MCP tool invocation failed: <e>"` (which contains the failure message)
as an ordinary result instead of propagating the exception, and on
success they return the session's payload. -/
theorem tool_fault_absorbed
    (sessionCall : String → List (String × JVal) → SessionOutcome)
    (tool : String) (argumentsOpt : Option (List (String × JVal)))
    (args : List (String × JVal)) (e r : String) :
    (sessionCall tool (argumentsOpt.getD []) = .raised e →
      call_tool sessionCall tool argumentsOpt =
        "MCP tool invocation failed: " ++ e ∧
      strContains (call_tool sessionCall tool argumentsOpt) e = true) ∧
    (sessionCall tool args = .raised e →
      mcp_call sessionCall tool args = "MCP tool invocation failed: " ++ e ∧
      strContains (mcp_call sessionCall tool args) e = true) ∧
    (sessionCall tool (argumentsOpt.getD []) = .ok r →
      call_tool sessionCall tool argumentsOpt = r) ∧
    (sessionCall tool args = .ok r → mcp_call sessionCall tool args = r) := by
  refine ⟨fun h => ⟨?_, ?_⟩, fun h => ⟨?_, ?_⟩, fun h => ?_, fun h => ?_⟩ <;>
    simp only [call_tool, mcp_call, h]
  · show containsTok e.data (("MCP tool invocation failed: " ++ e).data) = true
    rw [String.data_append]
    exact containsTok_append_self e.data _
  · show containsTok e.data (("MCP tool invocation failed: " ++ e).data) = true
    rw [String.data_append]
    exact containsTok_append_self e.data _

/-- C6 witness: a concrete session whose invocation raises
`"boom"` yields the textual error payload from both wrappers, and a
concrete succeeding session yields its payload. -/
theorem tool_fault_absorbed_witness :
    call_tool (fun _ _ => .raised "boom") "transitionJiraIssue" none =
      "MCP tool invocation failed: boom" ∧
    mcp_call (fun _ _ => .raised "boom") "transitionJiraIssue" [] =
      "MCP tool invocation failed: boom" ∧
    call_tool (fun _ _ => .ok "done") "transitionJiraIssue" none = "done" :=
  ⟨((tool_fault_absorbed (fun _ _ => .raised "boom") "transitionJiraIssue"
      none [] "boom" "done").1 rfl).1,
   ((tool_fault_absorbed (fun _ _ => .raised "boom") "transitionJiraIssue"
      none [] "boom" "done").2.1 rfl).1,
   (tool_fault_absorbed (fun _ _ => .ok "done") "transitionJiraIssue"
      none [] "boom" "done").2.2.1 rfl⟩

/-- The messages contributed by one history entry: a singleton for the
recognized roles, nothing otherwise. -/
def histMsg (m : HistEntry) : List ChatMessage :=
  if m.role = some "human" then [.human m.content]
  else if m.role = some "ai" then [.ai m.content]
  else []

lemma foldl_append_eq {α β : Type} (g : α → List β) (l : List α)
    (acc : List β) :
    l.foldl (fun a m => a ++ g m) acc = acc ++ l.flatMap g := by
  induction l generalizing acc with
  | nil => simp
  | cons m rest ih => simp [List.foldl_cons, ih]

lemma convertHistory_eq_bind (kv : List HistEntry) :
    convertHistory kv = kv.flatMap histMsg := by
  have hf : (fun (acc : List ChatMessage) (m : HistEntry) =>
      if m.role = some "human" then acc ++ [ChatMessage.human m.content]
      else if m.role = some "ai" then acc ++ [ChatMessage.ai m.content]
      else acc) = fun acc m => acc ++ histMsg m := by
    funext acc m
    simp only [histMsg]
    split_ifs <;> simp
  unfold convertHistory
  rw [hf, foldl_append_eq]
  simp

/-- C10: the history conversion keeps exactly the entries whose role is
`"human"` or `"ai"` (converting them in order into conversation turns)
and silently drops every other entry, so a history made only of
unrecognized roles is treated as empty. -/
theorem history_roles_filtered (kv pre post : List HistEntry)
    (m : HistEntry) :
    (m.role ≠ some "human" → m.role ≠ some "ai" →
      convertHistory (pre ++ m :: post) = convertHistory (pre ++ post)) ∧
    ((∀ e ∈ kv, e.role ≠ some "human" ∧ e.role ≠ some "ai") →
      convertHistory kv = []) ∧
    (m.role = some "human" → convertHistory (pre ++ m :: post) =
      convertHistory pre ++ [.human m.content] ++ convertHistory post) ∧
    (m.role = some "ai" → convertHistory (pre ++ m :: post) =
      convertHistory pre ++ [.ai m.content] ++ convertHistory post) := by
  refine ⟨fun h1 h2 => ?_, fun h => ?_, fun h => ?_, fun h => ?_⟩
  · simp [convertHistory_eq_bind, histMsg, h1, h2]
  · rw [convertHistory_eq_bind]
    induction kv with
    | nil => rfl
    | cons e rest ih =>
      have he := h e (by simp)
      simp only [List.flatMap_cons]
      rw [ih (fun x hx => h x (by simp [hx]))]
      simp [histMsg, he.1, he.2]
  · simp [convertHistory_eq_bind, histMsg, h]
  · have h1 : m.role ≠ some "human" := by simp [h]
    simp [convertHistory_eq_bind, histMsg, h, h1]

/-- C10 witness: a concrete history mixing `system`, missing, `human` and
`ai` roles keeps only the recognized turns, and one made only of
unrecognized roles converts to the empty history. -/
theorem history_roles_filtered_witness :
    convertHistory [⟨some "system", "sys"⟩, ⟨some "human", "a"⟩,
      ⟨none, "x"⟩, ⟨some "ai", "b"⟩] = [.human "a", .ai "b"] ∧
    convertHistory [⟨some "system", "sys"⟩, ⟨none, "x"⟩,
      ⟨some "Human", "y"⟩] = [] := by
  constructor
  · have h := (history_roles_filtered [] [] [⟨some "human", "a"⟩, ⟨none, "x"⟩,
      ⟨some "ai", "b"⟩] ⟨some "system", "sys"⟩).1 (by decide) (by decide)
    simp only [List.nil_append] at h
    rw [h]
    rfl
  · exact (history_roles_filtered [⟨some "system", "sys"⟩, ⟨none, "x"⟩,
      ⟨some "Human", "y"⟩] [] [] ⟨none, ""⟩).2.1 (by decide)

/-- A concrete stand-in for `json.loads` used by witnesses: it parses
exactly the text `{"a": 1}` (and nothing else) to the corresponding
dict. -/
def jsonLoads0 : String → Option JVal := fun s =>
  if s = "\x7b\"a\": 1\x7d" then some (.obj [("a", .num 1)]) else none

/-- A concrete stand-in for `ast.literal_eval` used by witnesses: it
parses nothing. -/
def litEval0 : String → Option JVal := fun _ => none

/-- A concrete stand-in for `json.dumps` used by witnesses. -/
def dumps0 : List (String × JVal) → String := fun _ => "\x7b\"a\": 1\x7d"

/-- C2: for a string-valued `arguments` field, both validator variants
turn an empty or whitespace-only string into the empty argument dict,
yield the parsed dict when structured parsing succeeds, and reject the
invocation with an invalid-arguments error when parsing fails (in the
`MCPCallInputWithParser.py` variant, only after the `ast.literal_eval`
fallback also fails), so the tool is never invoked with an unparsed
string. -/
theorem arguments_string_validation
    (jsonLoads litEval : String → Option JVal) (s : String)
    (kvs : List (String × JVal)) :
    (pyStrip s = "" →
      validate_TS jsonLoads (.str s) = .ok [] ∧
      validate_CI jsonLoads litEval (.str s) = .ok []) ∧
    (pyStrip s ≠ "" → jsonLoads s = some (.obj kvs) →
      validate_TS jsonLoads (.str s) = .ok kvs) ∧
    (pyStrip s ≠ "" → jsonLoads s = none →
      validate_TS jsonLoads (.str s) = .error "JSONDecodeError") ∧
    (pyStrip s ≠ "" → jsonLoads (pyStrip s) = some (.obj kvs) →
      validate_CI jsonLoads litEval (.str s) = .ok kvs) ∧
    (pyStrip s ≠ "" → jsonLoads (pyStrip s) = none →
      litEval (pyStrip s) = none →
      validate_CI jsonLoads litEval (.str s) =
        .error ("Invalid arguments string: " ++ pyStrip s)) := by
  refine ⟨fun h => ⟨?_, ?_⟩, fun h1 h2 => ?_, fun h1 h2 => ?_,
    fun h1 h2 => ?_, fun h1 h2 h3 => ?_⟩ <;>
    simp [validate_TS, parse_json_string_TS, validate_CI,
      parse_json_string_CI, *]

/-- C2 witness: with the concrete parser stand-ins, a whitespace-only
string validates to the empty dict, `{"a": 1}` validates to the parsed
dict, and an unparsable string is rejected by both variants. -/
theorem arguments_string_validation_witness :
    validate_TS jsonLoads0 (.str "   ") = .ok [] ∧
    validate_TS jsonLoads0 (.str "\x7b\"a\": 1\x7d") =
      .ok [("a", .num 1)] ∧
    validate_TS jsonLoads0 (.str "\x7bnot json") =
      .error "JSONDecodeError" ∧
    validate_CI jsonLoads0 litEval0 (.str "\x7bnot json") =
      .error ("Invalid arguments string: " ++ pyStrip "\x7bnot json") :=
  ⟨((arguments_string_validation jsonLoads0 litEval0 "   " []).1
      (by decide)).1,
   (arguments_string_validation jsonLoads0 litEval0 "\x7b\"a\": 1\x7d"
      [("a", .num 1)]).2.1 (by decide) (by rfl),
   (arguments_string_validation jsonLoads0 litEval0 "\x7bnot json"
      []).2.2.1 (by decide) (by rfl),
   (arguments_string_validation jsonLoads0 litEval0 "\x7bnot json"
      []).2.2.2.2 (by decide) (by rfl) (by rfl)⟩

/-- C3: when the JSON serialization of a dict `d` parses back to `d`,
validating an `arguments` field given as that JSON string yields the
same validated arguments as validating the dict itself, in both
validator variants; the structured form validates to `d` unchanged. -/
theorem arguments_string_structured_roundtrip
    (jsonLoads litEval : String → Option JVal)
    (dumps : List (String × JVal) → String) (d : List (String × JVal))
    (h1 : jsonLoads (dumps d) = some (.obj d))
    (h2 : pyStrip (dumps d) ≠ "")
    (h3 : jsonLoads (pyStrip (dumps d)) = some (.obj d)) :
    validate_TS jsonLoads (.str (dumps d)) =
      validate_TS jsonLoads (.obj d) ∧
    validate_CI jsonLoads litEval (.str (dumps d)) =
      validate_CI jsonLoads litEval (.obj d) ∧
    validate_TS jsonLoads (.obj d) = .ok d ∧
    validate_CI jsonLoads litEval (.obj d) = .ok d := by
  refine ⟨?_, ?_, ?_, ?_⟩ <;>
    simp [validate_TS, parse_json_string_TS, validate_CI,
      parse_json_string_CI, h1, h2, h3]

/-- C3 witness: with the concrete serializer and parser stand-ins, the
string form `{"a": 1}` and the structured form `{"a": 1}` of the
arguments validate identically. -/
theorem arguments_roundtrip_witness :
    validate_TS jsonLoads0 (.str (dumps0 [("a", .num 1)])) =
      validate_TS jsonLoads0 (.obj [("a", .num 1)]) ∧
    validate_CI jsonLoads0 litEval0 (.str (dumps0 [("a", .num 1)])) =
      validate_CI jsonLoads0 litEval0 (.obj [("a", .num 1)]) ∧
    validate_TS jsonLoads0 (.obj [("a", .num 1)]) = .ok [("a", .num 1)] :=
  have h := arguments_string_structured_roundtrip jsonLoads0 litEval0
    dumps0 [("a", .num 1)] (by rfl) (by decide) (by rfl)
  ⟨h.1, h.2.1, h.2.2.1⟩

/-- C1: every call to `stream` yields a sequence with exactly one
terminal event (`final` or `error`), the terminal event is the last one
yielded, and every `tool_call` event precedes it — whether the agent is
not ready, the run completes, the runner raises, or the consumer times
out (a timeout can occur only before the terminal item was consumed,
because the terminal item and the trailing sentinel are pushed with no
suspension point between them). -/
theorem stream_single_terminal (ls cb : Bool) (events : List ChainEvent)
    (exc : Option (Nat × String)) (t : Option Nat)
    (hvalid : ∀ n, t = some n → n < (runnerQueue events exc).length) :
    ∃ pre last, streamRun ls cb events exc t = pre ++ [last] ∧
      last.isTerminal = true ∧ (∀ e ∈ pre, e.isTerminal = false) ∧
      (streamRun ls cb events exc t).countP
        (fun e => e.isTerminal) = 1 := by
  by_cases hr : (!ls || !cb) = true
  · refine ⟨[], .error "MCP agent not ready", by simp [streamRun, hr],
      rfl, by simp, ?_⟩
    simp [streamRun, hr, List.countP_cons, StreamEvent.isTerminal]
  · obtain ⟨es, last0, hq, hterm, hpre⟩ := runnerQueue_shape events exc
    have hstream : streamRun ls cb events exc t =
        drainQueue (runnerQueue events exc) t := by
      simp [streamRun, hr]
    cases t with
    | none =>
      refine ⟨es, last0, by rw [hstream]; simpa [drainQueue] using hq,
        hterm, hpre, ?_⟩
      rw [hstream]
      show (runnerQueue events exc).countP (fun e => e.isTerminal) = 1
      rw [hq, List.countP_append]
      rw [List.countP_eq_zero.mpr (fun a ha => by simp [hpre a ha])]
      simp [List.countP_cons, hterm]
    | some n =>
      have hn : n < (runnerQueue events exc).length := hvalid n rfl
      rw [hq] at hn
      simp only [List.length_append, List.length_cons, List.length_nil] at hn
      have hle : n ≤ es.length := by omega
      have hout : streamRun ls cb events exc (some n) =
          List.take n es ++ [.error "Stream timeout"] := by
        rw [hstream]
        show List.take n (runnerQueue events exc) ++ _ = _
        rw [hq, List.take_append_of_le_length hle]
      refine ⟨List.take n es, .error "Stream timeout", hout, rfl, ?_, ?_⟩
      · exact fun e he => hpre e (List.take_subset n es he)
      · rw [hout, List.countP_append]
        rw [List.countP_eq_zero.mpr
          (fun a ha => by simp [hpre a (List.take_subset n es ha)])]
        simp [List.countP_cons, StreamEvent.isTerminal]

/-- A concrete upstream event sequence used by witnesses: one tool start,
then the chain-end event carrying the final output. -/
def chainEvents0 : List ChainEvent :=
  [.onToolStart (some "transitionJiraIssue")
     (some (.obj [("tool", .str "transitionJiraIssue")])),
   .onChainEnd (some (.obj [("output", .obj [("output",
     .str "The ticket DE-3 has been successfully moved to 'Done'.")])]))]

/-- C1 witness: a concrete ready run whose consumer times out after one
event still yields a sequence ending in a single terminal event. -/
theorem stream_single_terminal_witness :
    ∃ pre last, streamRun true true chainEvents0 none (some 1) =
        pre ++ [last] ∧
      last.isTerminal = true ∧ (∀ e ∈ pre, e.isTerminal = false) ∧
      (streamRun true true chainEvents0 none (some 1)).countP
        (fun e => e.isTerminal) = 1 :=
  stream_single_terminal true true chainEvents0 none (some 1)
    (fun n h => by cases h; decide)

/-- C7: a request submitted while no live session exists (the event loop
or the agent chain is not built) makes `submit` return the
`"MCP agent not ready"` error result immediately and makes `stream`
yield exactly one error event saying the agent is not ready and then
terminate. -/
theorem not_ready_submission (ls cb : Bool) (pr : SubmitResult)
    (events : List ChainEvent) (exc : Option (Nat × String))
    (t : Option Nat) (h : ls = false ∨ cb = false) :
    submitRun ls cb pr = .err "MCP agent not ready" ∧
    streamRun ls cb events exc t = [.error "MCP agent not ready"] := by
  rcases h with h | h <;> subst h <;> simp [submitRun, streamRun]

/-- C7 witness: with no event loop and no agent chain, `submit` returns
the not-ready error and `stream` yields the single not-ready error
event. -/
theorem not_ready_submission_witness :
    submitRun false false (.ok (.str "x") .null) =
      .err "MCP agent not ready" ∧
    streamRun false false [] none none =
      [.error "MCP agent not ready"] :=
  not_ready_submission false false (.ok (.str "x") .null) [] none none
    (Or.inl rfl)

/-- C8: when `Empty` is raised because no event arrived within the idle
bound (300 time-units), the stream yields the events consumed so far
followed by a terminal `"Stream timeout"` error event and terminates. -/
theorem stream_idle_timeout_terminates (events : List ChainEvent)
    (exc : Option (Nat × String)) (n : Nat) :
    streamRun true true events exc (some n) =
      List.take n (runnerQueue events exc) ++ [.error "Stream timeout"] ∧
    (streamRun true true events exc (some n)).getLast? =
      some (.error "Stream timeout") ∧
    streamIdleTimeout = 300 := by
  refine ⟨by simp [streamRun, drainQueue], ?_, rfl⟩
  have h : streamRun true true events exc (some n) =
      List.take n (runnerQueue events exc) ++ [.error "Stream timeout"] := by
    simp [streamRun, drainQueue]
  rw [h]
  exact List.getLast?_concat _

lemma subISOAux_no_match (convert : String → String) :
    ∀ (fuel : Nat) (cs : List Char), anyMatchISO cs = false →
      subISOAux convert fuel cs = cs := by
  intro fuel
  induction fuel with
  | zero => intro cs _; rfl
  | succ fuel ih =>
    intro cs h
    cases cs with
    | nil => rfl
    | cons c cs' =>
      simp only [anyMatchISO, Bool.or_eq_false_iff] at h
      cases hm : matchISO (c :: cs') with
      | some p => rw [hm] at h; simp at h
      | none =>
        simp only [subISOAux, hm]
        exact congrArg (c :: ·) (ih cs' h.2)

lemma subISOAux_copy (convert : String → String) :
    ∀ (pre tail : List Char) (fuel : Nat),
      (∀ i, i < pre.length → matchISO (List.drop i pre ++ tail) = none) →
      subISOAux convert (pre.length + fuel) (pre ++ tail) =
        pre ++ subISOAux convert fuel tail := by
  intro pre
  induction pre with
  | nil => intro tail fuel _; simp
  | cons c pre' ih =>
    intro tail fuel h
    have h0 : matchISO (c :: (pre' ++ tail)) = none := by
      simpa using h 0 (by simp)
    show subISOAux convert (pre'.length + 1 + fuel) (c :: (pre' ++ tail)) = _
    rw [show pre'.length + 1 + fuel = (pre'.length + fuel) + 1 by omega]
    simp only [subISOAux, h0]
    rw [ih tail fuel
      (fun i hi => by simpa using h (i + 1) (by simpa using Nat.succ_lt_succ hi))]
    rfl

lemma subISOAux_match_step (convert : String → String) (fuel : Nat)
    (c : Char) (cs m rest : List Char)
    (h : matchISO (c :: cs) = some (m, rest)) :
    subISOAux convert (fuel + 1) (c :: cs) =
      (convert (String.mk m)).data ++ subISOAux convert fuel rest := by
  simp [subISOAux, h]

lemma strSubISO_single_match (convert : String → String)
    (pre m rest : List Char) (hm : m ≠ [])
    (h1 : ∀ i, i < pre.length →
      matchISO (List.drop i pre ++ (m ++ rest)) = none)
    (h2 : matchISO (m ++ rest) = some (m, rest))
    (h3 : anyMatchISO rest = false) :
    strSubISO convert (String.mk (pre ++ (m ++ rest))) =
      String.mk (pre ++ ((convert (String.mk m)).data ++ rest)) := by
  unfold strSubISO
  show String.mk (subISOAux convert (pre ++ (m ++ rest)).length
    (pre ++ (m ++ rest))) = _
  congr 1
  have hlen : (pre ++ (m ++ rest)).length =
      pre.length + (m.length + rest.length) := by simp
  rw [hlen, subISOAux_copy convert pre (m ++ rest) (m.length + rest.length) h1]
  congr 1
  cases m with
  | nil => exact absurd rfl hm
  | cons c m' =>
    rw [show (c :: m').length + rest.length =
      (m'.length + rest.length) + 1 by simp; omega]
    rw [List.cons_append]
    rw [subISOAux_match_step convert (m'.length + rest.length) c (m' ++ rest)
      (c :: m') rest (by simpa using h2)]
    rw [subISOAux_no_match convert _ rest h3]

/-- C9: in the `/mcp` response generator, timestamp rewriting applies
only to parsed lines of type `"final"` with a string `output`: that
output has its ISO 8601 timestamp substrings replaced (a single match
decomposition shows the surrounding text is copied unchanged, and an
output with no ISO 8601 match is passed through identically); every
other line — unparsable, other event type, missing or non-string
output — is yielded verbatim. -/
theorem generator_rewrites_final_only
    (parseLine : String → Option (List (String × JVal)))
    (dumps : List (String × JVal) → String) (convert : String → String)
    (line out : String) (obj : List (String × JVal)) (v : JVal)
    (pre m rest : List Char) :
    (parseLine line = none →
      generatorStep parseLine dumps convert line = line) ∧
    (parseLine line = some obj →
      (∀ t, lookupKey "type" obj ≠ some (.str t)) →
      generatorStep parseLine dumps convert line = line) ∧
    (parseLine line = some obj → ∀ t,
      lookupKey "type" obj = some (.str t) → t ≠ "final" →
      generatorStep parseLine dumps convert line = line) ∧
    (parseLine line = some obj →
      lookupKey "type" obj = some (.str "final") →
      lookupKey "output" obj = none →
      generatorStep parseLine dumps convert line = line) ∧
    (parseLine line = some obj →
      lookupKey "type" obj = some (.str "final") →
      lookupKey "output" obj = some v → (∀ s, v ≠ .str s) →
      generatorStep parseLine dumps convert line = line) ∧
    (parseLine line = some obj →
      lookupKey "type" obj = some (.str "final") →
      lookupKey "output" obj = some (.str out) →
      generatorStep parseLine dumps convert line =
        dumps (setKey "output" (.str (strSubISO convert out)) obj)) ∧
    (anyMatchISO out.data = false → strSubISO convert out = out) ∧
    (m ≠ [] →
      (∀ i, i < pre.length →
        matchISO (List.drop i pre ++ (m ++ rest)) = none) →
      matchISO (m ++ rest) = some (m, rest) →
      anyMatchISO rest = false →
      strSubISO convert (String.mk (pre ++ (m ++ rest))) =
        String.mk (pre ++ ((convert (String.mk m)).data ++ rest))) := by
  refine ⟨fun h => ?_, fun h hT => ?_, fun h t ht hne => ?_,
    fun h ht ho => ?_, fun h ht ho hv => ?_, fun h ht ho => ?_,
    fun h => ?_, strSubISO_single_match convert pre m rest⟩
  · simp [generatorStep, h]
  · cases hl : lookupKey "type" obj with
    | none => simp [generatorStep, h, hl]
    | some val =>
      cases val <;> first
        | exact absurd hl (hT _)
        | simp [generatorStep, h, hl]
  · simp [generatorStep, h, ht, hne]
  · simp [generatorStep, h, ht, ho]
  · cases v <;> first
      | exact absurd rfl (hv _)
      | simp [generatorStep, h, ht, ho]
  · simp [generatorStep, h, ht, ho]
  · unfold strSubISO
    rw [subISOAux_no_match convert _ _ h]

/-- A concrete stand-in for `json.loads` on NDJSON lines used by
witnesses. -/
def parseLine0 : String → Option (List (String × JVal)) := fun s =>
  if s = "FINAL" then
    some [("type", .str "final"),
      ("output", .str "done at 2024-01-02T03:04:05Z!")]
  else if s = "TOOL" then some [("type", .str "tool_call")]
  else none

/-- A concrete stand-in for `json.dumps` on NDJSON objects used by
witnesses. -/
def dumps1 : List (String × JVal) → String := fun _ => "SERIALIZED"

/-- A concrete stand-in for the `dateutil` epoch conversion used by
witnesses: every timestamp parses to epoch second 0. -/
def epochOf0 : String → Option Int := fun _ => some 0

/-- C9 witness: with the concrete stand-ins, a non-JSON line and a
`tool_call` line pass through verbatim, a `final` line is re-serialized
with its output rewritten, an output with no timestamp is unchanged, and
a concrete timestamped output has exactly its timestamp replaced by the
relative phrase. -/
theorem generator_rewrites_final_only_witness :
    generatorStep parseLine0 dumps1 (convertTs 120 epochOf0) "not json" =
      "not json" ∧
    generatorStep parseLine0 dumps1 (convertTs 120 epochOf0) "TOOL" =
      "TOOL" ∧
    generatorStep parseLine0 dumps1 (convertTs 120 epochOf0) "FINAL" =
      "SERIALIZED" ∧
    strSubISO (convertTs 120 epochOf0) "no timestamps" = "no timestamps" ∧
    strSubISO (convertTs 120 epochOf0) "done at 2024-01-02T03:04:05Z!" =
      "done at 2 minutes ago!" := by
  refine ⟨?_, ?_, ?_, ?_, ?_⟩
  · exact (generator_rewrites_final_only parseLine0 dumps1
      (convertTs 120 epochOf0) "not json" "" [] .null [] [] []).1 rfl
  · exact (generator_rewrites_final_only parseLine0 dumps1
      (convertTs 120 epochOf0) "TOOL" "" [("type", .str "tool_call")]
      .null [] [] []).2.2.1 rfl "tool_call" rfl (by decide)
  · have h := (generator_rewrites_final_only parseLine0 dumps1
      (convertTs 120 epochOf0) "FINAL" "done at 2024-01-02T03:04:05Z!"
      [("type", .str "final"),
        ("output", .str "done at 2024-01-02T03:04:05Z!")]
      .null [] [] []).2.2.2.2.2.1 rfl rfl rfl
    exact h.trans rfl
  · exact (generator_rewrites_final_only parseLine0 dumps1
      (convertTs 120 epochOf0) "x" "no timestamps" [] .null [] [] []).2.2.2.2.2.2.1
      (by decide)
  · have h := (generator_rewrites_final_only parseLine0 dumps1
      (convertTs 120 epochOf0) "x" "" [] .null "done at ".data
      "2024-01-02T03:04:05Z".data "!".data).2.2.2.2.2.2.2
      (by decide) (by decide) (by decide) (by decide)
    rw [show ("done at 2024-01-02T03:04:05Z!" : String) =
      String.mk ("done at ".data ++ ("2024-01-02T03:04:05Z".data ++ "!".data))
      from by decide]
    rw [h]
    decide
